import Mathlib

/-!
Shallow embedding of `src/tilewallpaper.py` (tile-wallpaper generator).

Modelling conventions:
* Python strings are `List Char` (ASCII fragment of Python's str; unicode
  digits/whitespace accepted by Python's `int()` and `str.strip()` are out of
  the modelled character set).
* Python's `float` division inside `compute_effective_tile_size` is modelled
  as exact rational division; the two agree for all dimensions below 2^53.
* PIL images are modelled at the level the script observes them: width,
  height and mode string.  Pixel contents are produced and consumed only by
  the image library, which the script treats as an opaque collaborator, so
  `paste`, the resampling filter of `resize` and the colour values of
  `convert` are not modelled; their size/mode behaviour is.
* The error classes follow the taxonomy of the design: `invalidFormat` and
  `invalidValue` for the two kinds of `argparse.ArgumentTypeError` /
  `ValueError` raised on user input, `internalSizeError` for the internal
  "image too small to crop" `ValueError`.
-/

namespace TileWallpaper

/-! ### Python string primitives (over `List Char`) -/

/-- Python `s.lower()` (ASCII). -/
def pyLower (s : List Char) : List Char := s.map Char.toLower

/-- Python `s.strip()`: drop leading and trailing whitespace. -/
def pyStrip (s : List Char) : List Char :=
  ((s.dropWhile Char.isWhitespace).reverse.dropWhile Char.isWhitespace).reverse

/-- Python `s.replace("*", "x")`. -/
def pyReplaceStar (s : List Char) : List Char :=
  s.map (fun c => if c = '*' then 'x' else c)

/-- Python `s.split("x", 1)` when `"x" in s`: the part before the first `x` and the
part after it. -/
def splitFirstX (s : List Char) : List Char × List Char :=
  (s.takeWhile (fun c => c ≠ 'x'), (s.dropWhile (fun c => c ≠ 'x')).tail)

/-- Value of a decimal digit character. -/
def digitVal (c : Char) : Option Nat :=
  if c.isDigit then some (c.toNat - 48) else none

/-- Digit-run tail of Python's `int()` grammar: after a first digit, each
further position is a digit or a single `_` followed by a digit. -/
def pyIntGo (acc : Nat) : List Char → Option Nat
  | [] => some acc
  | c :: rest =>
    if c = '_' then
      match rest with
      | [] => none
      | c2 :: rest2 =>
        match digitVal c2 with
        | some d => pyIntGo (acc * 10 + d) rest2
        | none => none
    else
      match digitVal c with
      | some d => pyIntGo (acc * 10 + d) rest
      | none => none

/-- Unsigned part of Python's `int()` grammar: a nonempty digit run with
optional single underscores between digits. -/
def pyIntDigits : List Char → Option Nat
  | [] => none
  | c :: rest =>
    match digitVal c with
    | some d => pyIntGo d rest
    | none => none

/-- Signed part of Python's `int()` grammar: optional sign, then digits. -/
def pyIntSigned : List Char → Option Int
  | [] => none
  | c :: rest =>
    if c = '+' then (pyIntDigits rest).map (fun n => (n : Int))
    else if c = '-' then (pyIntDigits rest).map (fun n => -(n : Int))
    else (pyIntDigits (c :: rest)).map (fun n => (n : Int))

/-- Python's `int(s)` on a string: strip whitespace, optional sign, digits.
`none` models the `ValueError` branch. -/
def pyInt (s : List Char) : Option Int :=
  pyIntSigned (pyStrip s)

/-! ### Error taxonomy -/

/-- Error classes of the design: malformed token, out-of-range or unknown
value, and the internal "image too small to crop" invariant failure. -/
inductive Err where
  | invalidFormat
  | invalidValue
  | internalSizeError
deriving DecidableEq, Repr

/-! ### CLI token parsing -/

/-- Normalisation done by `parse_tiles`: `s.lower().replace("*","x").strip()`. -/
def tilesNorm (s : List Char) : List Char := pyStrip (pyReplaceStar (pyLower s))

/-- The function `parse_tiles`: parse tiles like `2x4` or `2*4` into `(2, 4)`. -/
def parse_tiles (s : List Char) : Except Err (Int × Int) :=
  let t := tilesNorm s
  if 'x' ∈ t then
    let ab := splitFirstX t
    match pyInt ab.1, pyInt ab.2 with
    | some tx, some ty =>
      if tx ≤ 0 ∨ ty ≤ 0 then .error .invalidValue
      else .ok (tx, ty)
    | _, _ => .error .invalidFormat
  else .error .invalidFormat

/-- Normalisation done by `parse_size`: `s.lower().strip()`. -/
def sizeNorm (s : List Char) : List Char := pyStrip (pyLower s)

/-- The function `parse_size`: parse size like `3840x2160` into `(3840, 2160)`. -/
def parse_size (s : List Char) : Except Err (Int × Int) :=
  let t := sizeNorm s
  if 'x' ∈ t then
    let ab := splitFirstX t
    match pyInt ab.1, pyInt ab.2 with
    | some w, some h =>
      if w ≤ 0 ∨ h ≤ 0 then .error .invalidValue
      else .ok (w, h)
    | _, _ => .error .invalidFormat
  else .error .invalidFormat

/-! ### Image model -/

/-- A PIL image at the granularity the script observes: size and mode. -/
structure Image where
  width : Nat
  height : Nat
  mode : String
deriving DecidableEq, Repr

/-- PIL `img.convert(m)`: changes the mode (pixel recoding is the library's). -/
def Image.convert (img : Image) (m : String) : Image := { img with mode := m }

/-- PIL `img.resize(size)`: new dimensions, same mode (the resampling filter
only affects pixel data). -/
def Image.resize (img : Image) (size : Nat × Nat) : Image :=
  { width := size.1, height := size.2, mode := img.mode }

/-- PIL `img.crop((left, top, right, bottom))`: size `(right-left, bottom-top)`,
same mode. -/
def Image.crop (img : Image) (left top right bottom : Nat) : Image :=
  { width := right - left, height := bottom - top, mode := img.mode }

/-- PIL `Image.new(mode, size, fill)`: fresh raster of the given mode and size. -/
def Image.new (mode : String) (size : Nat × Nat) : Image :=
  { width := size.1, height := size.2, mode := mode }

/-! ### The wallpaper pipeline -/

def DPI : Nat := 300

/-- Target output description. -/
structure TargetSpec where
  width_px : Nat
  height_px : Nat
  dpi : Nat := DPI
deriving DecidableEq, Repr

/-- The preset table. -/
def PRESETS : List (String × TargetSpec) :=
  [("phone", ⟨1080, 1920, DPI⟩),
   ("4k", ⟨3840, 2160, DPI⟩),
   ("a4-portrait", ⟨2480, 3508, DPI⟩),
   ("a4-landscape", ⟨3508, 2480, DPI⟩)]

/-- The function `load_tile`, after `Image.open`: normalise the mode to RGBA.  (Both
branches of the Python `if`/`elif` convert to RGBA; an image that is already
RGBA is returned unchanged.) -/
def load_tile (img : Image) : Image :=
  if img.mode ≠ "RGB" ∧ img.mode ≠ "RGBA" then img.convert ("RGBA")
  else if img.mode = "RGB" then img.convert ("RGBA")
  else img

/-- The function `compute_effective_tile_size`: `int(math.ceil(max(target_w / tiles_x,
target_h / tiles_y)))`.  Python float division is modelled as exact rational
division (they agree for all inputs below 2^53); the result is nonnegative
for `Nat` inputs, so `Int.toNat` is lossless. -/
def compute_effective_tile_size (target_w target_h tiles_x tiles_y : Nat) : Nat :=
  (Int.ceil (max ((target_w : ℚ) / (tiles_x : ℚ)) ((target_h : ℚ) / (tiles_y : ℚ)))).toNat

/-- The function `tile_image`: an RGBA canvas of `(tw * tiles_x, th * tiles_y)`; the paste
loop writes pixel data only and changes neither size nor mode. -/
def tile_image (tile : Image) (tiles_x tiles_y : Nat) : Image :=
  let tw := tile.width
  let th := tile.height
  Image.new ("RGBA") (tw * tiles_x, th * tiles_y)

/-- The five known anchors, in source order. -/
def anchors : List String :=
  ["center", "topleft", "topright", "bottomleft", "bottomright"]

/-- The `if`/`elif` anchor table of `crop_to_target`: top-left offset of the
crop window, `none` for an unknown anchor. -/
def crop_anchor_offset (w h target_w target_h : Nat) (anchor : String) :
    Option (Nat × Nat) :=
  if anchor = "center" then some ((w - target_w) / 2, (h - target_h) / 2)
  else if anchor = "topleft" then some (0, 0)
  else if anchor = "topright" then some (w - target_w, 0)
  else if anchor = "bottomleft" then some (0, h - target_h)
  else if anchor = "bottomright" then some (w - target_w, h - target_h)
  else none

/-- The function `crop_to_target`: crop `img` to exactly `(target_w, target_h)`. -/
def crop_to_target (img : Image) (target_w target_h : Nat) (anchor : String) :
    Except Err Image :=
  let w := img.width
  let h := img.height
  if w < target_w ∨ h < target_h then .error .internalSizeError
  else
    match crop_anchor_offset w h target_w target_h anchor with
    | some lt => .ok (img.crop lt.1 lt.2 (lt.1 + target_w) (lt.2 + target_h))
    | none => .error .invalidValue

/-- Model of `os.path.splitext(p)[1]`: the extension of the final path component,
where the leading dots of a file name do not start an extension. -/
def splitext_ext (p : List Char) : List Char :=
  let name := (p.reverse.takeWhile (fun c => c ≠ '/')).reverse
  let base := name.dropWhile (fun c => c = '.')
  if '.' ∈ base then '.' :: (base.reverse.takeWhile (fun c => c ≠ '.')).reverse
  else []

/-- The function `make_pattern_wallpaper`: the full pipeline from a decoded tile image to
the image that `out.save` writes (file I/O and DPI metadata are outside the
model; the saved image itself is returned). -/
def make_pattern_wallpaper (tile_img : Image) (output_path : List Char)
    (tiles_x tiles_y : Nat) (target : TargetSpec) (anchor : String)
    (force_square_check : Bool) : Except Err Image :=
  let tile := load_tile tile_img
  if force_square_check ∧ tile.width ≠ tile.height then .error .invalidValue
  else
    let target_w := target.width_px
    let target_h := target.height_px
    let eff := compute_effective_tile_size target_w target_h tiles_x tiles_y
    let tile2 := if (tile.width, tile.height) ≠ (eff, eff)
                 then tile.resize (eff, eff) else tile
    let tiled := tile_image tile2 tiles_x tiles_y
    match crop_to_target tiled target_w target_h anchor with
    | .ok cropped =>
      let ext := pyLower (splitext_ext output_path)
      if ext = (".jpg").data ∨ ext = (".jpeg").data
      then .ok (cropped.convert ("RGB"))
      else .ok cropped
    | .error e => .error e

/-! ### Auxiliary notions for the parsing contracts -/

/-- The ten decimal digit characters. -/
def decDigits : List Char := ['0', '1', '2', '3', '4', '5', '6', '7', '8', '9']

/-- Numeric value of a big-endian string of decimal digits. -/
def digitsToNat (ds : List Char) : Nat :=
  ds.foldl (fun a c => a * 10 + (c.toNat - 48)) 0

/-! ### Character and list lemmas -/

lemma digit_char_facts {c : Char} (h : c ∈ decDigits) :
    Char.toLower c = c ∧ c ≠ '*' ∧ c ≠ 'x' ∧ c ≠ '_' ∧ c ≠ '+' ∧ c ≠ '-' ∧
      c.isWhitespace = false ∧ digitVal c = some (c.toNat - 48) := by
  fin_cases h <;> decide

lemma dropWhile_eq_self_of_all {p : Char → Bool} {l : List Char}
    (h : ∀ c ∈ l, p c = false) : l.dropWhile p = l := by
  cases l with
  | nil => rfl
  | cons c cs => simp [List.dropWhile_cons, h c (List.mem_cons_self c cs)]

lemma pyStrip_eq_self {l : List Char} (h : ∀ c ∈ l, c.isWhitespace = false) :
    pyStrip l = l := by
  unfold pyStrip
  rw [dropWhile_eq_self_of_all h,
    dropWhile_eq_self_of_all (fun c hc => h c (List.mem_reverse.mp hc)),
    List.reverse_reverse]

lemma map_eq_self_of_all {f : Char → Char} {l : List Char}
    (h : ∀ c ∈ l, f c = c) : l.map f = l := by
  induction l with
  | nil => rfl
  | cons c cs ih =>
    rw [List.map_cons, h c (List.mem_cons_self c cs),
      ih (fun d hd => h d (List.mem_cons_of_mem c hd))]

lemma takeWhile_middle {p : Char → Bool} {l1 l2 : List Char} {a : Char}
    (h : ∀ c ∈ l1, p c = true) (ha : p a = false) :
    (l1 ++ a :: l2).takeWhile p = l1 ∧ (l1 ++ a :: l2).dropWhile p = a :: l2 := by
  induction l1 with
  | nil => simp [List.takeWhile_cons, List.dropWhile_cons, ha]
  | cons c cs ih =>
    have hc := h c (List.mem_cons_self c cs)
    have := ih (fun d hd => h d (List.mem_cons_of_mem c hd))
    simp [List.takeWhile_cons, List.dropWhile_cons, hc, this.1, this.2]

lemma splitFirstX_middle {ds1 ds2 : List Char} (h : ∀ c ∈ ds1, c ≠ 'x') :
    splitFirstX (ds1 ++ 'x' :: ds2) = (ds1, ds2) := by
  unfold splitFirstX
  have hmid := @takeWhile_middle (fun c => c ≠ 'x') ds1 ds2 'x'
    (fun c hc => by simpa using h c hc) (by simp)
  rw [hmid.1, hmid.2]
  rfl

/-! ### Python `int()` on all-digit strings -/

lemma pyIntGo_all_digits :
    ∀ (ds : List Char) (acc : Nat), (∀ c ∈ ds, c ∈ decDigits) →
      pyIntGo acc ds = some (ds.foldl (fun a c => a * 10 + (c.toNat - 48)) acc) := by
  intro ds
  induction ds with
  | nil => intro acc _; rfl
  | cons c cs ih =>
    intro acc h
    have hc := digit_char_facts (h c (List.mem_cons_self c cs))
    rw [pyIntGo.eq_def]
    simp only [if_neg hc.2.2.2.1, hc.2.2.2.2.2.2.2, List.foldl_cons]
    exact ih _ (fun d hd => h d (List.mem_cons_of_mem c hd))

lemma pyIntDigits_all_digits {c : Char} {cs : List Char}
    (h : ∀ d ∈ c :: cs, d ∈ decDigits) :
    pyIntDigits (c :: cs) = some (digitsToNat (c :: cs)) := by
  have hc := digit_char_facts (h c (List.mem_cons_self c cs))
  simp only [pyIntDigits, hc.2.2.2.2.2.2.2]
  rw [pyIntGo_all_digits cs _ (fun d hd => h d (List.mem_cons_of_mem c hd))]
  simp [digitsToNat]

lemma pyInt_all_digits {ds : List Char} (hne : ds ≠ [])
    (h : ∀ d ∈ ds, d ∈ decDigits) :
    pyInt ds = some ((digitsToNat ds : Int)) := by
  cases ds with
  | nil => exact absurd rfl hne
  | cons c cs =>
    have hc := digit_char_facts (h c (List.mem_cons_self c cs))
    have hstrip : pyStrip (c :: cs) = c :: cs :=
      pyStrip_eq_self (fun d hd => (digit_char_facts (h d hd)).2.2.2.2.2.2.1)
    rw [pyInt, hstrip]
    simp only [pyIntSigned, if_neg hc.2.2.2.2.1, if_neg hc.2.2.2.2.2.1,
      pyIntDigits_all_digits h]
    simp

/-! ### Normalisation of separator tokens -/

lemma mem_sep_token {ds1 ds2 : List Char} {sep c : Char}
    (hc : c ∈ ds1 ++ sep :: ds2) : c ∈ ds1 ∨ c = sep ∨ c ∈ ds2 := by
  rcases List.mem_append.mp hc with h | h
  · exact Or.inl h
  · rcases List.mem_cons.mp h with h | h
    · exact Or.inr (Or.inl h)
    · exact Or.inr (Or.inr h)

lemma tilesNorm_sep {ds1 ds2 : List Char} {sep : Char}
    (h1 : ∀ c ∈ ds1, c ∈ decDigits) (h2 : ∀ c ∈ ds2, c ∈ decDigits)
    (hsep : sep = 'x' ∨ sep = 'X' ∨ sep = '*') :
    tilesNorm (ds1 ++ sep :: ds2) = ds1 ++ 'x' :: ds2 := by
  have hfix : ∀ c ∈ decDigits,
      (if Char.toLower c = '*' then 'x' else Char.toLower c) = c := by
    intro c hc; fin_cases hc <;> decide
  have hsepval : (if Char.toLower sep = '*' then 'x' else Char.toLower sep) = 'x' := by
    rcases hsep with rfl | rfl | rfl <;> decide
  unfold tilesNorm pyLower pyReplaceStar
  rw [List.map_map, List.map_append, List.map_cons]
  simp only [Function.comp_apply, Function.comp_def]
  rw [map_eq_self_of_all (fun c hc => hfix c (h1 c hc)),
    map_eq_self_of_all (fun c hc => hfix c (h2 c hc)), hsepval]
  apply pyStrip_eq_self
  intro c hc
  rcases mem_sep_token hc with h | rfl | h
  · exact (digit_char_facts (h1 c h)).2.2.2.2.2.2.1
  · decide
  · exact (digit_char_facts (h2 c h)).2.2.2.2.2.2.1

lemma sizeNorm_sep {ds1 ds2 : List Char} {sep : Char}
    (h1 : ∀ c ∈ ds1, c ∈ decDigits) (h2 : ∀ c ∈ ds2, c ∈ decDigits)
    (hsep : sep = 'x' ∨ sep = 'X') :
    sizeNorm (ds1 ++ sep :: ds2) = ds1 ++ 'x' :: ds2 := by
  have hfix : ∀ c ∈ decDigits, Char.toLower c = c := by
    intro c hc; fin_cases hc <;> decide
  unfold sizeNorm pyLower
  rw [List.map_append, List.map_cons,
    map_eq_self_of_all (fun c hc => hfix c (h1 c hc)),
    map_eq_self_of_all (fun c hc => hfix c (h2 c hc))]
  have hsepval : Char.toLower sep = 'x' := by
    rcases hsep with rfl | rfl <;> decide
  rw [hsepval]
  apply pyStrip_eq_self
  intro c hc
  rcases mem_sep_token hc with h | rfl | h
  · exact (digit_char_facts (h1 c h)).2.2.2.2.2.2.1
  · decide
  · exact (digit_char_facts (h2 c h)).2.2.2.2.2.2.1

lemma sizeNorm_star {ds1 ds2 : List Char}
    (h1 : ∀ c ∈ ds1, c ∈ decDigits) (h2 : ∀ c ∈ ds2, c ∈ decDigits) :
    'x' ∉ sizeNorm (ds1 ++ '*' :: ds2) := by
  have hfix : ∀ c ∈ decDigits, Char.toLower c = c := by
    intro c hc; fin_cases hc <;> decide
  unfold sizeNorm pyLower
  rw [List.map_append, List.map_cons,
    map_eq_self_of_all (fun c hc => hfix c (h1 c hc)),
    map_eq_self_of_all (fun c hc => hfix c (h2 c hc))]
  have hstar : Char.toLower '*' = '*' := by decide
  rw [hstar, pyStrip_eq_self]
  · intro hmem
    rcases mem_sep_token hmem with h | h | h
    · exact (digit_char_facts (h1 _ h)).2.2.1 rfl
    · exact absurd h.symm (by decide)
    · exact (digit_char_facts (h2 _ h)).2.2.1 rfl
  · intro c hc
    rcases mem_sep_token hc with h | rfl | h
    · exact (digit_char_facts (h1 c h)).2.2.2.2.2.2.1
    · decide
    · exact (digit_char_facts (h2 c h)).2.2.2.2.2.2.1

/-! ### Effective tile size arithmetic -/

lemma cets_cast (w h x y : Nat) :
    (compute_effective_tile_size w h x y : Int) =
      Int.ceil (max ((w : ℚ) / (x : ℚ)) ((h : ℚ) / (y : ℚ))) := by
  unfold compute_effective_tile_size
  rw [Int.toNat_of_nonneg]
  apply Int.ceil_nonneg
  exact le_trans (div_nonneg (Nat.cast_nonneg w) (Nat.cast_nonneg x)) (le_max_left _ _)

lemma le_mul_cets_left (w h x y : Nat) (hx : 0 < x) :
    w ≤ x * compute_effective_tile_size w h x y := by
  have hx' : (0 : ℚ) < (x : ℚ) := by exact_mod_cast hx
  have hq : ((w : ℚ) / (x : ℚ)) ≤ ((compute_effective_tile_size w h x y : Int) : ℚ) := by
    rw [cets_cast]
    exact le_trans (le_max_left _ _) (Int.le_ceil _)
  rw [div_le_iff₀ hx'] at hq
  have : (w : ℚ) ≤ ((x * compute_effective_tile_size w h x y : Nat) : ℚ) := by
    push_cast
    push_cast at hq
    linarith
  exact_mod_cast this

lemma le_mul_cets_right (w h x y : Nat) (hy : 0 < y) :
    h ≤ y * compute_effective_tile_size w h x y := by
  have hy' : (0 : ℚ) < (y : ℚ) := by exact_mod_cast hy
  have hq : ((h : ℚ) / (y : ℚ)) ≤ ((compute_effective_tile_size w h x y : Int) : ℚ) := by
    rw [cets_cast]
    exact le_trans (le_max_right _ _) (Int.le_ceil _)
  rw [div_le_iff₀ hy'] at hq
  have : (h : ℚ) ≤ ((y * compute_effective_tile_size w h x y : Nat) : ℚ) := by
    push_cast
    push_cast at hq
    linarith
  exact_mod_cast this

lemma cets_le_of_covers (w h x y : Nat) (hx : 0 < x) (hy : 0 < y) (s : Int)
    (h1 : (w : Int) ≤ x * s) (h2 : (h : Int) ≤ y * s) :
    (compute_effective_tile_size w h x y : Int) ≤ s := by
  have hx' : (0 : ℚ) < (x : ℚ) := by exact_mod_cast hx
  have hy' : (0 : ℚ) < (y : ℚ) := by exact_mod_cast hy
  rw [cets_cast]
  apply Int.ceil_le.mpr
  apply max_le
  · rw [div_le_iff₀ hx']
    have : (w : ℚ) ≤ (x : ℚ) * (s : ℚ) := by exact_mod_cast h1
    linarith
  · rw [div_le_iff₀ hy']
    have : (h : ℚ) ≤ (y : ℚ) * (s : ℚ) := by exact_mod_cast h2
    linarith

/-! ### Pipeline helper lemmas -/

lemma load_tile_size (t : Image) :
    (load_tile t).width = t.width ∧ (load_tile t).height = t.height := by
  unfold load_tile Image.convert
  split
  · exact ⟨rfl, rfl⟩
  · split
    · exact ⟨rfl, rfl⟩
    · exact ⟨rfl, rfl⟩

lemma anchors_mem_iff (anchor : String) :
    anchor ∈ anchors ↔
      anchor = "center" ∨ anchor = "topleft" ∨ anchor = "topright" ∨
        anchor = "bottomleft" ∨ anchor = "bottomright" := by
  simp [anchors]

lemma crop_anchor_offset_eq_none_iff (w h tw th : Nat) (anchor : String) :
    crop_anchor_offset w h tw th anchor = none ↔ anchor ∉ anchors := by
  unfold crop_anchor_offset
  rw [anchors_mem_iff]
  split_ifs <;> simp_all

lemma crop_anchor_offset_isSome_of_mem {w h tw th : Nat} {anchor : String}
    (ha : anchor ∈ anchors) :
    ∃ lt, crop_anchor_offset w h tw th anchor = some lt := by
  rcases (anchors_mem_iff anchor).mp ha with rfl | rfl | rfl | rfl | rfl <;>
    exact ⟨_, rfl⟩

lemma crop_to_target_ok_size {img : Image} {tw th : Nat} {anchor : String}
    {out : Image} (h : crop_to_target img tw th anchor = .ok out) :
    out.width = tw ∧ out.height = th ∧ out.mode = img.mode := by
  simp only [crop_to_target] at h
  split at h
  · exact absurd h (by simp)
  · split at h
    · rw [Except.ok.injEq] at h
      subst h
      refine ⟨?_, ?_, rfl⟩ <;> simp [Image.crop]
    · exact absurd h (by simp)

lemma crop_to_target_ok_of {img : Image} {tw th : Nat} {anchor : String}
    (hw : tw ≤ img.width) (hh : th ≤ img.height) (ha : anchor ∈ anchors) :
    ∃ out, crop_to_target img tw th anchor = .ok out := by
  obtain ⟨lt, hlt⟩ :=
    @crop_anchor_offset_isSome_of_mem img.width img.height tw th anchor ha
  refine ⟨img.crop lt.1 lt.2 (lt.1 + tw) (lt.2 + th), ?_⟩
  simp only [crop_to_target]
  rw [if_neg (by omega), hlt]

lemma resized_size (t : Image) (e : Nat) :
    (if (t.width, t.height) ≠ (e, e) then t.resize (e, e) else t).width = e ∧
      (if (t.width, t.height) ≠ (e, e) then t.resize (e, e) else t).height = e := by
  split
  · exact ⟨rfl, rfl⟩
  · next hne =>
    rw [not_not, Prod.mk.injEq] at hne
    exact ⟨hne.1, hne.2⟩

lemma tile_image_size (t : Image) (cx cy : Nat) :
    (tile_image t cx cy).width = t.width * cx ∧
      (tile_image t cx cy).height = t.height * cy ∧
      (tile_image t cx cy).mode = "RGBA" :=
  ⟨rfl, rfl, rfl⟩

lemma make_pattern_wallpaper_ok {tile : Image} {path : List Char} {cx cy : Nat}
    {target : TargetSpec} {anchor : String} {fsc : Bool}
    (hcx : 0 < cx) (hcy : 0 < cy) (ha : anchor ∈ anchors)
    (hsq : fsc = true → tile.width = tile.height) :
    ∃ out, make_pattern_wallpaper tile path cx cy target anchor fsc = .ok out ∧
      out.width = target.width_px ∧ out.height = target.height_px := by
  have hts := load_tile_size tile
  have hnotsq : ¬(fsc = true ∧ (load_tile tile).width ≠ (load_tile tile).height) := by
    rintro ⟨hf, hne⟩
    exact hne (by rw [hts.1, hts.2]; exact hsq hf)
  simp only [make_pattern_wallpaper]
  rw [if_neg hnotsq]
  set e := compute_effective_tile_size target.width_px target.height_px cx cy with he
  set t := load_tile tile with ht
  set t2 := if (t.width, t.height) ≠ (e, e) then t.resize (e, e) else t with ht2
  have h2 : t2.width = e ∧ t2.height = e := by rw [ht2]; exact resized_size t e
  have hti := tile_image_size t2 cx cy
  have hwle : target.width_px ≤ (tile_image t2 cx cy).width := by
    rw [hti.1, h2.1, Nat.mul_comm]
    exact le_mul_cets_left _ _ _ _ hcx
  have hhle : target.height_px ≤ (tile_image t2 cx cy).height := by
    rw [hti.2.1, h2.2, Nat.mul_comm]
    exact le_mul_cets_right _ _ _ _ hcy
  obtain ⟨cropped, hcrop⟩ := crop_to_target_ok_of hwle hhle ha
  have hsize := crop_to_target_ok_size hcrop
  rw [hcrop]
  by_cases hext : pyLower (splitext_ext path) = ['.', 'j', 'p', 'g'] ∨
      pyLower (splitext_ext path) = ['.', 'j', 'p', 'e', 'g']
  · refine ⟨cropped.convert ("RGB"), ?_, hsize.1, hsize.2.1⟩
    show (if pyLower (splitext_ext path) = ['.', 'j', 'p', 'g'] ∨
        pyLower (splitext_ext path) = ['.', 'j', 'p', 'e', 'g']
      then Except.ok (cropped.convert ("RGB")) else Except.ok cropped) = _
    rw [if_pos hext]
  · refine ⟨cropped, ?_, hsize.1, hsize.2.1⟩
    show (if pyLower (splitext_ext path) = ['.', 'j', 'p', 'g'] ∨
        pyLower (splitext_ext path) = ['.', 'j', 'p', 'e', 'g']
      then Except.ok (cropped.convert ("RGB")) else Except.ok cropped) = _
    rw [if_neg hext]

/-! ### Parsing helper lemmas -/

lemma parse_pair_fields {ds1 ds2 : List Char}
    (h1 : ∀ c ∈ ds1, c ∈ decDigits) (h2 : ∀ c ∈ ds2, c ∈ decDigits)
    (hne1 : ds1 ≠ []) (hne2 : ds2 ≠ []) :
    'x' ∈ ds1 ++ 'x' :: ds2 ∧
    splitFirstX (ds1 ++ 'x' :: ds2) = (ds1, ds2) ∧
    pyInt ds1 = some ((digitsToNat ds1 : Int)) ∧
    pyInt ds2 = some ((digitsToNat ds2 : Int)) := by
  refine ⟨List.mem_append_right _ (List.mem_cons_self _ _), ?_, ?_, ?_⟩
  · exact splitFirstX_middle (fun c hc => (digit_char_facts (h1 c hc)).2.2.1)
  · exact pyInt_all_digits hne1 h1
  · exact pyInt_all_digits hne2 h2

lemma parse_tiles_sep_ok {ds1 ds2 : List Char} {sep : Char}
    (hne1 : ds1 ≠ []) (hne2 : ds2 ≠ [])
    (h1 : ∀ c ∈ ds1, c ∈ decDigits) (h2 : ∀ c ∈ ds2, c ∈ decDigits)
    (hp1 : 0 < digitsToNat ds1) (hp2 : 0 < digitsToNat ds2)
    (hsep : sep = 'x' ∨ sep = 'X' ∨ sep = '*') :
    parse_tiles (ds1 ++ sep :: ds2) =
      .ok ((digitsToNat ds1 : Int), (digitsToNat ds2 : Int)) := by
  have hff := parse_pair_fields h1 h2 hne1 hne2
  have hval1 : pyInt (splitFirstX (ds1 ++ 'x' :: ds2)).1 =
      some ((digitsToNat ds1 : Int)) := by
    rw [hff.2.1]; exact hff.2.2.1
  have hval2 : pyInt (splitFirstX (ds1 ++ 'x' :: ds2)).2 =
      some ((digitsToNat ds2 : Int)) := by
    rw [hff.2.1]; exact hff.2.2.2
  have hpos : ¬((digitsToNat ds1 : Int) ≤ 0 ∨ (digitsToNat ds2 : Int) ≤ 0) := by
    omega
  simp only [parse_tiles]
  rw [tilesNorm_sep h1 h2 hsep, if_pos hff.1, hval1, hval2]
  show (if (digitsToNat ds1 : Int) ≤ 0 ∨ (digitsToNat ds2 : Int) ≤ 0
      then Except.error Err.invalidValue
      else Except.ok ((digitsToNat ds1 : Int), (digitsToNat ds2 : Int))) = _
  rw [if_neg hpos]

lemma parse_size_sep_ok {ds1 ds2 : List Char} {sep : Char}
    (hne1 : ds1 ≠ []) (hne2 : ds2 ≠ [])
    (h1 : ∀ c ∈ ds1, c ∈ decDigits) (h2 : ∀ c ∈ ds2, c ∈ decDigits)
    (hp1 : 0 < digitsToNat ds1) (hp2 : 0 < digitsToNat ds2)
    (hsep : sep = 'x' ∨ sep = 'X') :
    parse_size (ds1 ++ sep :: ds2) =
      .ok ((digitsToNat ds1 : Int), (digitsToNat ds2 : Int)) := by
  have hff := parse_pair_fields h1 h2 hne1 hne2
  have hval1 : pyInt (splitFirstX (ds1 ++ 'x' :: ds2)).1 =
      some ((digitsToNat ds1 : Int)) := by
    rw [hff.2.1]; exact hff.2.2.1
  have hval2 : pyInt (splitFirstX (ds1 ++ 'x' :: ds2)).2 =
      some ((digitsToNat ds2 : Int)) := by
    rw [hff.2.1]; exact hff.2.2.2
  have hpos : ¬((digitsToNat ds1 : Int) ≤ 0 ∨ (digitsToNat ds2 : Int) ≤ 0) := by
    omega
  simp only [parse_size]
  rw [sizeNorm_sep h1 h2 hsep, if_pos hff.1, hval1, hval2]
  show (if (digitsToNat ds1 : Int) ≤ 0 ∨ (digitsToNat ds2 : Int) ≤ 0
      then Except.error Err.invalidValue
      else Except.ok ((digitsToNat ds1 : Int), (digitsToNat ds2 : Int))) = _
  rw [if_neg hpos]

/-! ### Claim theorems -/

/-- C1: for all positive `targetW`, `targetH`, `countX`, `countY`,
`compute_effective_tile_size` returns the smallest integer `s` with
`countX * s ≥ targetW` and `countY * s ≥ targetH`: the returned size covers
the target in both axes, and no smaller integer covers it. -/
theorem compute_effective_tile_size_is_least (w h x y : Nat)
    (hw : 0 < w) (hh : 0 < h) (hx : 0 < x) (hy : 0 < y) :
    (w ≤ x * compute_effective_tile_size w h x y ∧
      h ≤ y * compute_effective_tile_size w h x y) ∧
    ∀ s : Int, s < (compute_effective_tile_size w h x y : Int) →
      ¬((w : Int) ≤ (x : Int) * s ∧ (h : Int) ≤ (y : Int) * s) := by
  refine ⟨⟨le_mul_cets_left w h x y hx, le_mul_cets_right w h x y hy⟩, ?_⟩
  intro s hs hcov
  exact absurd (cets_le_of_covers w h x y hx hy s hcov.1 hcov.2) (by omega)

/-- Witness for C1, at the round-trip example 1200×1200 tiled 3×3. -/
theorem compute_effective_tile_size_is_least_witness :
    (1200 ≤ 3 * compute_effective_tile_size 1200 1200 3 3 ∧
      1200 ≤ 3 * compute_effective_tile_size 1200 1200 3 3) ∧
    ∀ s : Int, s < (compute_effective_tile_size 1200 1200 3 3 : Int) →
      ¬((1200 : Int) ≤ (3 : Int) * s ∧ (1200 : Int) ≤ (3 : Int) * s) :=
  compute_effective_tile_size_is_least 1200 1200 3 3
    (by decide) (by decide) (by decide) (by decide)

/-- C3: for an image of size `(W, H)` and target `(w, h)` with `W ≥ w`,
`H ≥ h`, the crop offsets follow the anchor table exactly — center
`((W-w)/2, (H-h)/2)` with floor division, topleft `(0,0)`, topright
`(W-w, 0)`, bottomleft `(0, H-h)`, bottomright `(W-w, H-h)` — and the crop
window has size exactly `(w, h)`. -/
theorem crop_anchor_offset_table (W H w h : Nat) (hW : w ≤ W) (hH : h ≤ H) :
    (crop_anchor_offset W H w h ("center") = some ((W - w) / 2, (H - h) / 2) ∧
     crop_anchor_offset W H w h ("topleft") = some (0, 0) ∧
     crop_anchor_offset W H w h ("topright") = some (W - w, 0) ∧
     crop_anchor_offset W H w h ("bottomleft") = some (0, H - h) ∧
     crop_anchor_offset W H w h ("bottomright") = some (W - w, H - h)) ∧
    ∀ anchor ∈ anchors, ∀ img : Image, img.width = W → img.height = H →
      ∃ out, crop_to_target img w h anchor = .ok out ∧
        out.width = w ∧ out.height = h := by
  constructor
  · refine ⟨?_, ?_, ?_, ?_, ?_⟩ <;> simp [crop_anchor_offset]
  · intro anchor ha img hw2 hh2
    obtain ⟨out, hout⟩ := @crop_to_target_ok_of img w h anchor
      (by rw [hw2]; exact hW) (by rw [hh2]; exact hH) ha
    have hsz := crop_to_target_ok_size hout
    exact ⟨out, hout, hsz.1, hsz.2.1⟩

/-- Witness for C3 on a 110×90 canvas cropped to 100×80 at the center. -/
theorem crop_anchor_offset_table_witness :
    crop_anchor_offset 110 90 100 80 ("center") =
      some ((110 - 100) / 2, (90 - 80) / 2) ∧
    ∃ out, crop_to_target (Image.mk 110 90 ("RGBA")) 100 80 ("center") = .ok out ∧
      out.width = 100 ∧ out.height = 80 :=
  ⟨(crop_anchor_offset_table 110 90 100 80 (by decide) (by decide)).1.1,
   (crop_anchor_offset_table 110 90 100 80 (by decide) (by decide)).2
     ("center") (by decide) (Image.mk 110 90 ("RGBA")) rfl rfl⟩

/-- C9 (implicit): for any of the five known anchors and an image at least as
large as the target, the computed offsets stay within `W - w` and `H - h`,
so the crop window `(left, top, left + w, top + h)` lies inside the image. -/
theorem crop_anchor_offset_in_bounds (W H w h : Nat) (anchor : String)
    (l t : Nat) (ha : anchor ∈ anchors) (hW : w ≤ W) (hH : h ≤ H)
    (hoff : crop_anchor_offset W H w h anchor = some (l, t)) :
    l ≤ W - w ∧ t ≤ H - h ∧ l + w ≤ W ∧ t + h ≤ H := by
  rcases (anchors_mem_iff anchor).mp ha with rfl | rfl | rfl | rfl | rfl
  · rw [show crop_anchor_offset W H w h ("center") =
        some ((W - w) / 2, (H - h) / 2) from rfl] at hoff
    cases hoff
    omega
  · rw [show crop_anchor_offset W H w h ("topleft") = some (0, 0) from rfl] at hoff
    cases hoff
    omega
  · rw [show crop_anchor_offset W H w h ("topright") = some (W - w, 0) from rfl] at hoff
    cases hoff
    omega
  · rw [show crop_anchor_offset W H w h ("bottomleft") = some (0, H - h) from rfl] at hoff
    cases hoff
    omega
  · rw [show crop_anchor_offset W H w h ("bottomright") =
        some (W - w, H - h) from rfl] at hoff
    cases hoff
    omega

/-- Witness for C9 at the bottom-right anchor on a 110×90 canvas. -/
theorem crop_anchor_offset_in_bounds_witness :
    10 ≤ 110 - 100 ∧ 10 ≤ 90 - 80 ∧ 10 + 100 ≤ 110 ∧ 10 + 80 ≤ 90 :=
  crop_anchor_offset_in_bounds 110 90 100 80 ("bottomright") 10 10
    (by decide) (by decide) (by decide) (by decide)

/-- C4: `crop_to_target` fails with `InternalSizeError` exactly when the
image is smaller than the target in some axis; when the size precondition
holds it fails with `InvalidValue` exactly when the anchor is unknown, and
otherwise returns a cropped image. -/
theorem crop_to_target_error_cases (img : Image) (tw th : Nat) (anchor : String) :
    (crop_to_target img tw th anchor = .error .internalSizeError ↔
      img.width < tw ∨ img.height < th) ∧
    (tw ≤ img.width → th ≤ img.height →
      ((crop_to_target img tw th anchor = .error .invalidValue ↔ anchor ∉ anchors) ∧
       (anchor ∈ anchors → ∃ out, crop_to_target img tw th anchor = .ok out))) := by
  have hdef : crop_to_target img tw th anchor =
      if img.width < tw ∨ img.height < th then .error .internalSizeError
      else
        match crop_anchor_offset img.width img.height tw th anchor with
        | some lt => .ok (img.crop lt.1 lt.2 (lt.1 + tw) (lt.2 + th))
        | none => .error .invalidValue := rfl
  by_cases hsz : img.width < tw ∨ img.height < th
  · rw [hdef, if_pos hsz]
    refine ⟨iff_of_true rfl hsz, ?_⟩
    intro h1 h2
    exact absurd hsz (by omega)
  · rw [hdef, if_neg hsz]
    cases hoff : crop_anchor_offset img.width img.height tw th anchor with
    | some lt =>
      have hmem : anchor ∈ anchors := by
        by_contra hnot
        rw [← crop_anchor_offset_eq_none_iff img.width img.height tw th anchor] at hnot
        rw [hoff] at hnot
        exact Option.noConfusion hnot
      refine ⟨iff_of_false (by simp) hsz, ?_⟩
      intro h1 h2
      exact ⟨iff_of_false (by simp) (by simp [hmem]), fun _ => ⟨_, rfl⟩⟩
    | none =>
      have hnot : anchor ∉ anchors :=
        (crop_anchor_offset_eq_none_iff img.width img.height tw th anchor).mp hoff
      refine ⟨iff_of_false (by simp) hsz, ?_⟩
      intro h1 h2
      exact ⟨iff_of_true rfl hnot, fun hmem => absurd hmem hnot⟩

/-- Witness for C4: a large-enough image with a valid anchor crops fine. -/
theorem crop_to_target_error_cases_witness :
    ∃ out, crop_to_target (Image.mk 110 90 ("RGBA")) 100 80 ("center") = .ok out :=
  ((crop_to_target_error_cases (Image.mk 110 90 ("RGBA")) 100 80 ("center")).2
    (by decide) (by decide)).2 (by decide)

/-- C2: whenever `make_pattern_wallpaper` produces an output image it has
exactly the target dimensions, and for positive tile counts, a positive
target and a valid anchor (with the tile square when the check is on) it
does produce one, regardless of the input tile's dimensions. -/
theorem make_pattern_wallpaper_output_size :
    (∀ (tile : Image) (path : List Char) (cx cy : Nat) (target : TargetSpec)
        (anchor : String) (fsc : Bool) (out : Image),
        make_pattern_wallpaper tile path cx cy target anchor fsc = .ok out →
        out.width = target.width_px ∧ out.height = target.height_px) ∧
    (∀ (tile : Image) (path : List Char) (cx cy : Nat) (target : TargetSpec)
        (anchor : String) (fsc : Bool),
        0 < cx → 0 < cy → 0 < target.width_px → 0 < target.height_px →
        anchor ∈ anchors → (fsc = true → tile.width = tile.height) →
        ∃ out, make_pattern_wallpaper tile path cx cy target anchor fsc = .ok out ∧
          out.width = target.width_px ∧ out.height = target.height_px) := by
  constructor
  · intro tile path cx cy target anchor fsc out hok
    simp only [make_pattern_wallpaper] at hok
    split at hok
    · exact absurd hok (by simp)
    · split at hok
      · rename_i cropped hcrop
        have hsz := crop_to_target_ok_size hcrop
        split at hok
        · rw [Except.ok.injEq] at hok
          subst hok
          exact ⟨hsz.1, hsz.2.1⟩
        · rw [Except.ok.injEq] at hok
          subst hok
          exact ⟨hsz.1, hsz.2.1⟩
      · exact absurd hok (by simp)
  · intro tile path cx cy target anchor fsc hcx hcy htw hth ha hsq
    exact make_pattern_wallpaper_ok hcx hcy ha hsq

/-- Witness for C2: a 500×500 tile tiled 3×3 onto a 1200×1200 target. -/
theorem make_pattern_wallpaper_output_size_witness :
    ∃ out, make_pattern_wallpaper (Image.mk 500 500 ("RGBA")) (("out.png").data)
        3 3 (TargetSpec.mk 1200 1200 300) ("center") true = .ok out ∧
      out.width = 1200 ∧ out.height = 1200 :=
  make_pattern_wallpaper_output_size.2 (Image.mk 500 500 ("RGBA"))
    (("out.png").data) 3 3 (TargetSpec.mk 1200 1200 300) ("center") true
    (by decide) (by decide) (by decide) (by decide) (by decide) (fun _ => rfl)

/-- C7: with the square check enabled a non-square tile makes
`make_pattern_wallpaper` fail with `InvalidValue` and no output image is
produced; with the check disabled the pipeline proceeds and succeeds for
positive tile counts and a valid anchor. -/
theorem make_pattern_wallpaper_square_check :
    (∀ (tile : Image) (path : List Char) (cx cy : Nat) (target : TargetSpec)
        (anchor : String), tile.width ≠ tile.height →
        make_pattern_wallpaper tile path cx cy target anchor true =
          .error .invalidValue) ∧
    (∀ (tile : Image) (path : List Char) (cx cy : Nat) (target : TargetSpec)
        (anchor : String), 0 < cx → 0 < cy → anchor ∈ anchors →
        ∃ out, make_pattern_wallpaper tile path cx cy target anchor false = .ok out) := by
  constructor
  · intro tile path cx cy target anchor hne
    have hts := load_tile_size tile
    simp only [make_pattern_wallpaper]
    split
    · rfl
    · rename_i hcond
      refine absurd ⟨?_, ?_⟩ hcond
      · trivial
      · rw [hts.1, hts.2]; exact hne
  · intro tile path cx cy target anchor hcx hcy ha
    obtain ⟨out, hout, _, _⟩ :=
      @make_pattern_wallpaper_ok tile path cx cy target anchor false
        hcx hcy ha (fun hf => nomatch hf)
    exact ⟨out, hout⟩

/-- Witness for C7: a 100×50 tile is rejected when the check is on and
accepted when it is off. -/
theorem make_pattern_wallpaper_square_check_witness :
    make_pattern_wallpaper (Image.mk 100 50 ("RGBA")) (("out.png").data) 2 2
        (TargetSpec.mk 100 80 300) ("center") true = .error .invalidValue ∧
    ∃ out, make_pattern_wallpaper (Image.mk 100 50 ("RGBA")) (("out.png").data) 2 2
        (TargetSpec.mk 100 80 300) ("center") false = .ok out :=
  ⟨make_pattern_wallpaper_square_check.1 (Image.mk 100 50 ("RGBA"))
      (("out.png").data) 2 2 (TargetSpec.mk 100 80 300) ("center") (by decide),
   make_pattern_wallpaper_square_check.2 (Image.mk 100 50 ("RGBA"))
      (("out.png").data) 2 2 (TargetSpec.mk 100 80 300) ("center")
      (by decide) (by decide) (by decide)⟩

/-- C10 (implicit): with the square check disabled (any tile shape), the
tile used for tiling has edge `eff` in both axes — it is resized whenever
its size differs from `(eff, eff)` — so the canvas built by `tile_image`
has size exactly `(eff * countX, eff * countY)` and the final output still
has exactly the target dimensions. -/
theorem make_pattern_wallpaper_canvas_size (tile : Image) (path : List Char)
    (cx cy : Nat) (target : TargetSpec) (anchor : String)
    (hcx : 0 < cx) (hcy : 0 < cy) (ha : anchor ∈ anchors) :
    (tile_image (if ((load_tile tile).width, (load_tile tile).height) ≠
          (compute_effective_tile_size target.width_px target.height_px cx cy,
           compute_effective_tile_size target.width_px target.height_px cx cy)
        then (load_tile tile).resize
          (compute_effective_tile_size target.width_px target.height_px cx cy,
           compute_effective_tile_size target.width_px target.height_px cx cy)
        else load_tile tile) cx cy).width =
      compute_effective_tile_size target.width_px target.height_px cx cy * cx ∧
    (tile_image (if ((load_tile tile).width, (load_tile tile).height) ≠
          (compute_effective_tile_size target.width_px target.height_px cx cy,
           compute_effective_tile_size target.width_px target.height_px cx cy)
        then (load_tile tile).resize
          (compute_effective_tile_size target.width_px target.height_px cx cy,
           compute_effective_tile_size target.width_px target.height_px cx cy)
        else load_tile tile) cx cy).height =
      compute_effective_tile_size target.width_px target.height_px cx cy * cy ∧
    ∃ out, make_pattern_wallpaper tile path cx cy target anchor false = .ok out ∧
      out.width = target.width_px ∧ out.height = target.height_px := by
  have h2 := resized_size (load_tile tile)
    (compute_effective_tile_size target.width_px target.height_px cx cy)
  refine ⟨?_, ?_,
    make_pattern_wallpaper_ok hcx hcy ha (fun hf => nomatch hf)⟩
  · rw [(tile_image_size _ cx cy).1, h2.1]
  · rw [(tile_image_size _ cx cy).2.1, h2.2]

/-- Witness for C10: a non-square 100×50 tile, check disabled, 2×2 grid,
100×80 target. -/
theorem make_pattern_wallpaper_canvas_size_witness :
    (tile_image (if ((load_tile (Image.mk 100 50 ("RGBA"))).width,
          (load_tile (Image.mk 100 50 ("RGBA"))).height) ≠
          (compute_effective_tile_size 100 80 2 2,
           compute_effective_tile_size 100 80 2 2)
        then (load_tile (Image.mk 100 50 ("RGBA"))).resize
          (compute_effective_tile_size 100 80 2 2,
           compute_effective_tile_size 100 80 2 2)
        else load_tile (Image.mk 100 50 ("RGBA"))) 2 2).width =
      compute_effective_tile_size 100 80 2 2 * 2 ∧
    (tile_image (if ((load_tile (Image.mk 100 50 ("RGBA"))).width,
          (load_tile (Image.mk 100 50 ("RGBA"))).height) ≠
          (compute_effective_tile_size 100 80 2 2,
           compute_effective_tile_size 100 80 2 2)
        then (load_tile (Image.mk 100 50 ("RGBA"))).resize
          (compute_effective_tile_size 100 80 2 2,
           compute_effective_tile_size 100 80 2 2)
        else load_tile (Image.mk 100 50 ("RGBA"))) 2 2).height =
      compute_effective_tile_size 100 80 2 2 * 2 ∧
    ∃ out, make_pattern_wallpaper (Image.mk 100 50 ("RGBA")) (("out.png").data)
        2 2 (TargetSpec.mk 100 80 300) ("center") false = .ok out ∧
      out.width = 100 ∧ out.height = 80 :=
  make_pattern_wallpaper_canvas_size (Image.mk 100 50 ("RGBA")) (("out.png").data)
    2 2 (TargetSpec.mk 100 80 300) ("center") (by decide) (by decide) (by decide)

/-- C8: the saved image has no alpha channel (mode RGB) exactly when the
output path's extension, lowercased, is `.jpg` or `.jpeg`; for any other
extension the saved image is the cropped image itself, alpha untouched
(mode RGBA). -/
theorem make_pattern_wallpaper_alpha (tile : Image) (path : List Char)
    (cx cy : Nat) (target : TargetSpec) (anchor : String) (fsc : Bool)
    (out : Image)
    (hok : make_pattern_wallpaper tile path cx cy target anchor fsc = .ok out) :
    (out.mode = "RGB" ↔ (pyLower (splitext_ext path) = ['.', 'j', 'p', 'g'] ∨
        pyLower (splitext_ext path) = ['.', 'j', 'p', 'e', 'g'])) ∧
    (¬(pyLower (splitext_ext path) = ['.', 'j', 'p', 'g'] ∨
        pyLower (splitext_ext path) = ['.', 'j', 'p', 'e', 'g']) →
      out.mode = "RGBA" ∧
      crop_to_target (tile_image (if ((load_tile tile).width, (load_tile tile).height) ≠
            (compute_effective_tile_size target.width_px target.height_px cx cy,
             compute_effective_tile_size target.width_px target.height_px cx cy)
          then (load_tile tile).resize
            (compute_effective_tile_size target.width_px target.height_px cx cy,
             compute_effective_tile_size target.width_px target.height_px cx cy)
          else load_tile tile) cx cy)
        target.width_px target.height_px anchor = .ok out) := by
  simp only [make_pattern_wallpaper] at hok
  split at hok
  · exact absurd hok (by simp)
  · split at hok
    · rename_i cropped hcrop
      have hmode : cropped.mode = "RGBA" := (crop_to_target_ok_size hcrop).2.2
      split at hok
      · rename_i hext
        rw [Except.ok.injEq] at hok
        subst hok
        exact ⟨iff_of_true rfl hext, fun hnot => absurd hext hnot⟩
      · rename_i hext
        rw [Except.ok.injEq] at hok
        subst hok
        refine ⟨iff_of_false ?_ hext, fun _ => ⟨hmode, hcrop⟩⟩
        rw [hmode]
        decide
    · exact absurd hok (by simp)

/-- Witness for C8: a PNG path keeps RGBA. -/
theorem make_pattern_wallpaper_alpha_witness :
    ∃ out, make_pattern_wallpaper (Image.mk 500 500 ("RGBA")) (("out.png").data)
        3 3 (TargetSpec.mk 1200 1200 300) ("center") true = .ok out ∧
      (out.mode = "RGB" ↔ (pyLower (splitext_ext (("out.png").data)) = ['.', 'j', 'p', 'g'] ∨
        pyLower (splitext_ext (("out.png").data)) = ['.', 'j', 'p', 'e', 'g'])) := by
  obtain ⟨out, hout, _, _⟩ := @make_pattern_wallpaper_ok
    (Image.mk 500 500 ("RGBA")) (("out.png").data) 3 3
    (TargetSpec.mk 1200 1200 300) ("center") true
    (by decide) (by decide) (by decide) (fun _ => rfl)
  exact ⟨out, hout, (make_pattern_wallpaper_alpha (Image.mk 500 500 ("RGBA"))
    (("out.png").data) 3 3 (TargetSpec.mk 1200 1200 300) ("center") true out hout).1⟩

/-- C5: `parse_tiles` accepts the case-insensitive separator forms `axb`
(letter x) and `a*b` and returns the written pair; it fails with
`InvalidFormat` when the normalised token has no separator or a field is not
a parseable integer, with `InvalidValue` when a parsed integer is ≤ 0, and
every accepted pair is positive. -/
theorem parse_tiles_contract :
    (∀ ds1 ds2 : List Char, ds1 ≠ [] → ds2 ≠ [] →
      (∀ c ∈ ds1, c ∈ decDigits) → (∀ c ∈ ds2, c ∈ decDigits) →
      0 < digitsToNat ds1 → 0 < digitsToNat ds2 →
      parse_tiles (ds1 ++ 'x' :: ds2) =
        .ok ((digitsToNat ds1 : Int), (digitsToNat ds2 : Int)) ∧
      parse_tiles (ds1 ++ 'X' :: ds2) =
        .ok ((digitsToNat ds1 : Int), (digitsToNat ds2 : Int)) ∧
      parse_tiles (ds1 ++ '*' :: ds2) =
        .ok ((digitsToNat ds1 : Int), (digitsToNat ds2 : Int))) ∧
    (∀ s : List Char, 'x' ∉ tilesNorm s → parse_tiles s = .error .invalidFormat) ∧
    (∀ s : List Char, 'x' ∈ tilesNorm s →
      (pyInt (splitFirstX (tilesNorm s)).1 = none ∨
        pyInt (splitFirstX (tilesNorm s)).2 = none) →
      parse_tiles s = .error .invalidFormat) ∧
    (∀ (s : List Char) (a b : Int), 'x' ∈ tilesNorm s →
      pyInt (splitFirstX (tilesNorm s)).1 = some a →
      pyInt (splitFirstX (tilesNorm s)).2 = some b →
      (a ≤ 0 ∨ b ≤ 0) → parse_tiles s = .error .invalidValue) ∧
    (∀ (s : List Char) (a b : Int), parse_tiles s = .ok (a, b) → 0 < a ∧ 0 < b) := by
  refine ⟨?_, ?_, ?_, ?_, ?_⟩
  · intro ds1 ds2 hne1 hne2 h1 h2 hp1 hp2
    exact ⟨parse_tiles_sep_ok hne1 hne2 h1 h2 hp1 hp2 (Or.inl rfl),
      parse_tiles_sep_ok hne1 hne2 h1 h2 hp1 hp2 (Or.inr (Or.inl rfl)),
      parse_tiles_sep_ok hne1 hne2 h1 h2 hp1 hp2 (Or.inr (Or.inr rfl))⟩
  · intro s hnx
    simp only [parse_tiles]
    rw [if_neg hnx]
  · intro s hx hnone
    simp only [parse_tiles]
    rw [if_pos hx]
    rcases hnone with h | h
    · rw [h]
    · cases h1 : pyInt (splitFirstX (tilesNorm s)).1 <;> rw [h]
  · intro s a b hx ha hb hle
    simp only [parse_tiles]
    rw [if_pos hx, ha, hb]
    show (if a ≤ 0 ∨ b ≤ 0 then Except.error Err.invalidValue
        else Except.ok (a, b)) = _
    rw [if_pos hle]
  · intro s a b hok
    simp only [parse_tiles] at hok
    split at hok
    · split at hok
      · rename_i tx ty htx hty
        split at hok
        · exact absurd hok (by simp)
        · rename_i hpos
          rw [Except.ok.injEq] at hok
          cases hok
          omega
      · exact absurd hok (by simp)
    · exact absurd hok (by simp)

/-- Witness for C5: the token `2x4` parses to `(2, 4)`. -/
theorem parse_tiles_contract_witness :
    parse_tiles (['2'] ++ 'x' :: ['4']) =
      .ok ((digitsToNat ['2'] : Int), (digitsToNat ['4'] : Int)) :=
  (parse_tiles_contract.1 ['2'] ['4'] (by decide) (by decide) (by decide)
    (by decide) (by decide) (by decide)).1

/-- C6: `parse_size` accepts only the x-separator form: a `wxh` token with
positive fields parses to `(w, h)`, a token with only a `*` separator fails
with `InvalidFormat`, and a token whose fields parse to an integer ≤ 0 fails
with `InvalidValue`. -/
theorem parse_size_contract :
    (∀ ds1 ds2 : List Char, ds1 ≠ [] → ds2 ≠ [] →
      (∀ c ∈ ds1, c ∈ decDigits) → (∀ c ∈ ds2, c ∈ decDigits) →
      0 < digitsToNat ds1 → 0 < digitsToNat ds2 →
      parse_size (ds1 ++ 'x' :: ds2) =
        .ok ((digitsToNat ds1 : Int), (digitsToNat ds2 : Int))) ∧
    (∀ ds1 ds2 : List Char,
      (∀ c ∈ ds1, c ∈ decDigits) → (∀ c ∈ ds2, c ∈ decDigits) →
      parse_size (ds1 ++ '*' :: ds2) = .error .invalidFormat) ∧
    (∀ (s : List Char) (a b : Int), 'x' ∈ sizeNorm s →
      pyInt (splitFirstX (sizeNorm s)).1 = some a →
      pyInt (splitFirstX (sizeNorm s)).2 = some b →
      (a ≤ 0 ∨ b ≤ 0) → parse_size s = .error .invalidValue) := by
  refine ⟨?_, ?_, ?_⟩
  · intro ds1 ds2 hne1 hne2 h1 h2 hp1 hp2
    exact parse_size_sep_ok hne1 hne2 h1 h2 hp1 hp2 (Or.inl rfl)
  · intro ds1 ds2 h1 h2
    simp only [parse_size]
    rw [if_neg (sizeNorm_star h1 h2)]
  · intro s a b hx ha hb hle
    simp only [parse_size]
    rw [if_pos hx, ha, hb]
    show (if a ≤ 0 ∨ b ≤ 0 then Except.error Err.invalidValue
        else Except.ok (a, b)) = _
    rw [if_pos hle]

/-- Witness for C6: `3840x2160` parses, `3840*2160` is rejected. -/
theorem parse_size_contract_witness :
    parse_size (['3', '8', '4', '0'] ++ 'x' :: ['2', '1', '6', '0']) =
      .ok ((digitsToNat ['3', '8', '4', '0'] : Int),
        (digitsToNat ['2', '1', '6', '0'] : Int)) ∧
    parse_size (['3', '8', '4', '0'] ++ '*' :: ['2', '1', '6', '0']) =
      .error .invalidFormat :=
  ⟨parse_size_contract.1 ['3', '8', '4', '0'] ['2', '1', '6', '0']
      (by decide) (by decide) (by decide) (by decide) (by decide) (by decide),
   parse_size_contract.2.1 ['3', '8', '4', '0'] ['2', '1', '6', '0']
      (by decide) (by decide)⟩

end TileWallpaper
